import Mathlib

/-!
Shallow embedding of `src/main.py` (an inverted pendulum on a cart, PID
controlled, fixed timestep).  Python floats are modelled by real numbers;
the mutable instance attributes of class `InvertedPendulum` become an
explicit `State` record threaded through the tick function.
-/

namespace InvertedPendulum

/-- `self.g` -/
def g : ℝ := 9.81
/-- `self.m` -/
def m : ℝ := 1
/-- `self.l` -/
def l : ℝ := 30
/-- `self.dt` -/
noncomputable def dt : ℝ := 1/60
/-- `self.Kp` -/
def Kp : ℝ := 1000
/-- `self.Ki` -/
def Ki : ℝ := 0.1
/-- `self.Kd` -/
def Kd : ℝ := 300
/-- `self.force` (the force magnitude limit, F_MAX) -/
def force_limit : ℝ := 100
/-- local `damping` in `update` -/
def damping : ℝ := 0.1

/-- The first loop of `normalize_angle`:
`while angle > math.pi: angle -= 2 * math.pi`. -/
noncomputable def normalize_angle_sub (angle : ℝ) : ℝ :=
  if angle > Real.pi then normalize_angle_sub (angle - 2 * Real.pi) else angle
termination_by (⌈(angle - Real.pi) / (2 * Real.pi)⌉).toNat
decreasing_by
  have hpi : (0 : ℝ) < Real.pi := Real.pi_pos
  have h2 : (0 : ℝ) < 2 * Real.pi := by linarith
  have heq : (angle - 2 * Real.pi - Real.pi) / (2 * Real.pi)
      = (angle - Real.pi) / (2 * Real.pi) - 1 := by
    field_simp
    ring
  have hpos : 0 < (angle - Real.pi) / (2 * Real.pi) := by
    apply div_pos _ h2
    linarith
  have hceil : 0 < ⌈(angle - Real.pi) / (2 * Real.pi)⌉ := Int.ceil_pos.mpr hpos
  have hsub : ⌈(angle - Real.pi) / (2 * Real.pi) - 1⌉
      = ⌈(angle - Real.pi) / (2 * Real.pi)⌉ - 1 := Int.ceil_sub_one _
  rw [heq, hsub]
  omega

/-- The second loop of `normalize_angle`:
`while angle < -math.pi: angle += 2 * math.pi`. -/
noncomputable def normalize_angle_add (angle : ℝ) : ℝ :=
  if angle < -Real.pi then normalize_angle_add (angle + 2 * Real.pi) else angle
termination_by (⌈(-angle - Real.pi) / (2 * Real.pi)⌉).toNat
decreasing_by
  have hpi : (0 : ℝ) < Real.pi := Real.pi_pos
  have h2 : (0 : ℝ) < 2 * Real.pi := by linarith
  have heq : (-(angle + 2 * Real.pi) - Real.pi) / (2 * Real.pi)
      = (-angle - Real.pi) / (2 * Real.pi) - 1 := by
    field_simp
    ring
  have hpos : 0 < (-angle - Real.pi) / (2 * Real.pi) := by
    apply div_pos _ h2
    linarith
  have hceil : 0 < ⌈(-angle - Real.pi) / (2 * Real.pi)⌉ := Int.ceil_pos.mpr hpos
  have hsub : ⌈(-angle - Real.pi) / (2 * Real.pi) - 1⌉
      = ⌈(-angle - Real.pi) / (2 * Real.pi)⌉ - 1 := Int.ceil_sub_one _
  rw [heq, hsub]
  omega

/-- `normalize_angle`: the two loops run in sequence. -/
noncomputable def normalize_angle (angle : ℝ) : ℝ :=
  normalize_angle_add (normalize_angle_sub angle)

theorem normalize_angle_sub_of_le {x : ℝ} (h : x ≤ Real.pi) :
    normalize_angle_sub x = x := by
  rw [normalize_angle_sub]
  exact if_neg (not_lt.mpr h)

theorem normalize_angle_add_of_ge {x : ℝ} (h : -Real.pi ≤ x) :
    normalize_angle_add x = x := by
  rw [normalize_angle_add]
  exact if_neg (not_lt.mpr h)

theorem normalize_angle_sub_le (x : ℝ) : normalize_angle_sub x ≤ Real.pi := by
  induction x using normalize_angle_sub.induct with
  | case1 x h ih => rw [normalize_angle_sub, if_pos h]; exact ih
  | case2 x h => rw [normalize_angle_sub, if_neg h]; exact le_of_not_lt h

theorem normalize_angle_add_ge (x : ℝ) : -Real.pi ≤ normalize_angle_add x := by
  induction x using normalize_angle_add.induct with
  | case1 x h ih => rw [normalize_angle_add, if_pos h]; exact ih
  | case2 x h => rw [normalize_angle_add, if_neg h]; exact le_of_not_lt h

theorem normalize_angle_add_le {x : ℝ} (hx : x ≤ Real.pi) :
    normalize_angle_add x ≤ Real.pi := by
  induction x using normalize_angle_add.induct with
  | case1 x h ih =>
    rw [normalize_angle_add, if_pos h]
    exact ih (by have := Real.pi_pos; linarith)
  | case2 x h => rw [normalize_angle_add, if_neg h]; exact hx

theorem normalize_angle_mem (x : ℝ) :
    -Real.pi ≤ normalize_angle x ∧ normalize_angle x ≤ Real.pi :=
  ⟨normalize_angle_add_ge _, normalize_angle_add_le (normalize_angle_sub_le x)⟩

theorem normalize_angle_of_mem {x : ℝ} (h1 : -Real.pi ≤ x) (h2 : x ≤ Real.pi) :
    normalize_angle x = x := by
  rw [normalize_angle, normalize_angle_sub_of_le h2, normalize_angle_add_of_ge h1]

theorem normalize_angle_neg_pi : normalize_angle (-Real.pi) = -Real.pi :=
  normalize_angle_of_mem le_rfl (by have := Real.pi_pos; linarith)

theorem normalize_angle_pi : normalize_angle Real.pi = Real.pi :=
  normalize_angle_of_mem (by have := Real.pi_pos; linarith) le_rfl

/-- The mutable attributes of class `InvertedPendulum` that the tick touches,
as one record (`auto_control = true` is Automatic mode). -/
structure State where
  theta : ℝ
  omega : ℝ
  cart_x : ℝ
  cart_v : ℝ
  integral_error : ℝ
  prev_error : ℝ
  auto_control : Bool

/-- The per-tick key inputs read from the host input layer:
SPACE (edge), LEFT (level), RIGHT (level). -/
structure Input where
  toggle_pressed : Bool
  manual_left : Bool
  manual_right : Bool

/-- `__init__`: the fixed initial state.  The constructor takes no
configuration parameters and performs no validation. -/
noncomputable def init : State :=
  { theta := Real.pi / 2 + 0.1
    omega := 0
    cart_x := 80
    cart_v := 0
    integral_error := 0
    prev_error := 0
    auto_control := true }

/-- `calculate_control`: returns the clamped control force together with the
updated `self.integral_error`. -/
noncomputable def calculate_control (theta omega integral_error : ℝ) : ℝ × ℝ :=
  let error := normalize_angle (theta - (-(Real.pi / 2)))
  let integral_error := max (-5) (min 5 (integral_error + error * dt))
  let derivative := omega
  let control := Kp * error + Ki * integral_error + Kd * derivative
  (max (-force_limit) (min force_limit control), integral_error)

/-- The un-clamped PID sum of `calculate_control` (`control` in the source),
with the integral term already updated and clamped. -/
noncomputable def raw_control (theta omega integral_error : ℝ) : ℝ :=
  Kp * normalize_angle (theta - (-(Real.pi / 2)))
    + Ki * max (-5) (min 5
        (integral_error + normalize_angle (theta - (-(Real.pi / 2))) * dt))
    + Kd * omega

/-- Lines 68-70 of `update`: the SPACE-key mode toggle. -/
def handle_toggle (s : State) (toggle_pressed : Bool) : State :=
  if toggle_pressed then
    { s with auto_control := !s.auto_control, integral_error := 0 }
  else s

/-- Lines 73, 79-82 of `update`: the manual-mode force, by order of
assignment (`force = 0`, then LEFT overwrites, then RIGHT overwrites). -/
noncomputable def manual_force (left_pressed right_pressed : Bool) : ℝ :=
  let force : ℝ := 0
  let force := if left_pressed then -force_limit else force
  let force := if right_pressed then force_limit else force
  force

/-- Lines 86-104 of `update`: the equations of motion and the cart clamp,
for a given applied force. -/
noncomputable def physics_step (s : State) (force : ℝ) : State :=
  let sin_theta := Real.sin s.theta
  let cos_theta := Real.cos s.theta
  let alpha := (-g * cos_theta + force * sin_theta / m) / l
  let omega := s.omega + alpha * dt
  let omega := omega * (1 - damping * dt)
  let theta := s.theta + omega * dt
  let cart_v := force * dt / m
  let cart_x := s.cart_x + cart_v
  let cart_x := max 20 (min 140 cart_x)
  { s with theta := theta, omega := omega, cart_x := cart_x, cart_v := cart_v }

/-- `update`: one tick (toggle handling, force resolution, physics). -/
noncomputable def update (s0 : State) (inp : Input) : State :=
  let s := handle_toggle s0 inp.toggle_pressed
  if s.auto_control then
    let r := calculate_control s.theta s.omega s.integral_error
    physics_step { s with integral_error := r.2 } r.1
  else
    physics_step s (manual_force inp.manual_left inp.manual_right)

/-- Iterated ticks. -/
noncomputable def run (s : State) : List Input → State
  | [] => s
  | inp :: rest => run (update s inp) rest

/-- The per-tick trajectory: the state after each tick, in order. -/
noncomputable def trajectory (s : State) : List Input → List State
  | [] => []
  | inp :: rest => update s inp :: trajectory (update s inp) rest

theorem physics_step_integral (s : State) (force : ℝ) :
    (physics_step s force).integral_error = s.integral_error := rfl

theorem physics_step_cart_v (s : State) (force : ℝ) :
    (physics_step s force).cart_v = force * dt / m := rfl

theorem physics_step_cart_x (s : State) (force : ℝ) :
    (physics_step s force).cart_x
      = max 20 (min 140 (s.cart_x + force * dt / m)) := rfl

theorem force_limit_pos : (0 : ℝ) < force_limit := by norm_num [force_limit]

theorem clamp5_mem (x : ℝ) :
    -5 ≤ max (-5 : ℝ) (min 5 x) ∧ max (-5 : ℝ) (min 5 x) ≤ 5 :=
  ⟨le_max_left _ _, max_le (by norm_num) (min_le_left _ _)⟩

theorem calculate_control_snd (theta omega integral_error : ℝ) :
    (calculate_control theta omega integral_error).2
      = max (-5) (min 5 (integral_error
          + normalize_angle (theta - (-(Real.pi / 2))) * dt)) := rfl

theorem update_integral_mem (s : State) (inp : Input)
    (h1 : -5 ≤ s.integral_error) (h2 : s.integral_error ≤ 5) :
    -5 ≤ (update s inp).integral_error ∧ (update s inp).integral_error ≤ 5 := by
  have hmem : -5 ≤ (handle_toggle s inp.toggle_pressed).integral_error ∧
      (handle_toggle s inp.toggle_pressed).integral_error ≤ 5 := by
    unfold handle_toggle
    split
    · exact ⟨by norm_num, by norm_num⟩
    · exact ⟨h1, h2⟩
  unfold update
  dsimp only
  split
  · rw [physics_step_integral]
    dsimp only
    rw [calculate_control_snd]
    exact clamp5_mem _
  · rw [physics_step_integral]
    exact hmem

theorem run_integral_mem :
    ∀ (inputs : List Input) (s : State),
      -5 ≤ s.integral_error → s.integral_error ≤ 5 →
      -5 ≤ (run s inputs).integral_error ∧ (run s inputs).integral_error ≤ 5
  | [], _, h1, h2 => ⟨h1, h2⟩
  | inp :: rest, s, h1, h2 =>
    run_integral_mem rest (update s inp)
      (update_integral_mem s inp h1 h2).1 (update_integral_mem s inp h1 h2).2

/-- C1: one tick of the physics integrator performs, in this order:
`alpha = (-g*cos(theta) + force*sin(theta)/m)/l`; `omega += alpha*dt`;
`omega *= (1 - damping*dt)` with `damping = 0.1`; `theta += omega*dt` using
the updated omega; `cart_v = force*dt/m` (assigned, not accumulated);
`cart_x += cart_v` and then clamped to `[20, 140]` (semi-implicit Euler). -/
theorem C1_physics_step_semi_implicit_euler (s : State) (force : ℝ) :
    (physics_step s force).omega
        = (s.omega + (-g * Real.cos s.theta + force * Real.sin s.theta / m) / l * dt)
            * (1 - damping * dt)
  ∧ (physics_step s force).theta = s.theta + (physics_step s force).omega * dt
  ∧ (physics_step s force).cart_v = force * dt / m
  ∧ (physics_step s force).cart_x
        = max 20 (min 140 (s.cart_x + (physics_step s force).cart_v))
  ∧ damping = 0.1 :=
  ⟨rfl, rfl, rfl, rfl, rfl⟩

/-- C2: the force returned by `calculate_control` equals the raw PID sum
clamped to `[-force_limit, force_limit]`, hence its magnitude is at most
`force_limit = 100`, and when the raw sum exceeds the limit the returned
force is exactly `±force_limit`. -/
theorem C2_control_output_clamped (theta omega integral_error : ℝ) :
    |(calculate_control theta omega integral_error).1| ≤ force_limit
  ∧ (calculate_control theta omega integral_error).1
      = max (-force_limit) (min force_limit (raw_control theta omega integral_error))
  ∧ (force_limit < raw_control theta omega integral_error →
      (calculate_control theta omega integral_error).1 = force_limit)
  ∧ (raw_control theta omega integral_error < -force_limit →
      (calculate_control theta omega integral_error).1 = -force_limit)
  ∧ force_limit = 100 := by
  have hpos : (0 : ℝ) < force_limit := force_limit_pos
  have heq : (calculate_control theta omega integral_error).1
      = max (-force_limit) (min force_limit (raw_control theta omega integral_error)) :=
    rfl
  refine ⟨?_, heq, ?_, ?_, by norm_num [force_limit]⟩
  · rw [heq, abs_le]
    exact ⟨le_max_left _ _, max_le (by linarith) (min_le_left _ _)⟩
  · intro h
    rw [heq, min_eq_left h.le, max_eq_right (by linarith)]
  · intro h
    rw [heq, min_eq_right (by linarith), max_eq_left h.le]

/-- C3: starting from its initial value 0, `integral_error` stays in
`[-5, 5]`: every `calculate_control` leaves it clamped into that interval,
every toggle resets it to 0, and after any sequence of ticks from `init`
it is still in `[-5, 5]`. -/
theorem C3_integral_error_invariant :
    (∀ theta omega integral_error : ℝ,
        -5 ≤ (calculate_control theta omega integral_error).2
      ∧ (calculate_control theta omega integral_error).2 ≤ 5)
  ∧ (∀ s : State, (handle_toggle s true).integral_error = 0)
  ∧ init.integral_error = 0
  ∧ (∀ inputs : List Input,
        -5 ≤ (run init inputs).integral_error
      ∧ (run init inputs).integral_error ≤ 5) := by
  refine ⟨fun theta omega integral_error => ?_, fun s => rfl, rfl, fun inputs => ?_⟩
  · rw [calculate_control_snd]
    exact clamp5_mem _
  · exact run_integral_mem inputs init (by norm_num [init]) (by norm_num [init])

theorem handle_toggle_cart (s : State) (b : Bool) :
    (handle_toggle s b).cart_x = s.cart_x := by
  unfold handle_toggle
  split <;> rfl

theorem update_cart (s : State) (inp : Input) :
    (update s inp).cart_x
      = max 20 (min 140 (s.cart_x + (update s inp).cart_v)) := by
  unfold update
  dsimp only
  split
  · rw [physics_step_cart_x, physics_step_cart_v]
    dsimp only
    rw [handle_toggle_cart]
  · rw [physics_step_cart_x, physics_step_cart_v, handle_toggle_cart]

/-- C4: from any `cart_x` in `[20, 140]`, after a tick `cart_x` is again in
`[20, 140]`, for every input (mode, keys); the bound is enforced by
saturating clamp of `cart_x + cart_v`, not by reflection. -/
theorem C4_cart_x_invariant (s : State) (inp : Input)
    (h1 : 20 ≤ s.cart_x) (h2 : s.cart_x ≤ 140) :
    20 ≤ (update s inp).cart_x ∧ (update s inp).cart_x ≤ 140
  ∧ (update s inp).cart_x
      = max 20 (min 140 (s.cart_x + (update s inp).cart_v)) := by
  refine ⟨?_, ?_, update_cart s inp⟩
  · rw [update_cart]
    exact le_max_left _ _
  · rw [update_cart]
    exact max_le (by norm_num) (min_le_left _ _)

theorem C4_cart_x_invariant_witness :
    20 ≤ (update init ⟨false, false, false⟩).cart_x
  ∧ (update init ⟨false, false, false⟩).cart_x ≤ 140
  ∧ (update init ⟨false, false, false⟩).cart_x
      = max 20 (min 140 (init.cart_x + (update init ⟨false, false, false⟩).cart_v)) :=
  C4_cart_x_invariant init ⟨false, false, false⟩
    (by norm_num [init]) (by norm_num [init])

/-- C5 counterexample: at input `-π` the claim fails — `normalize_angle (-π)`
is `-π` itself, which is not in the half-open interval `(-π, π]`. -/
theorem C5_counterexample :
    ¬(-Real.pi < normalize_angle (-Real.pi)
      ∧ normalize_angle (-Real.pi) ≤ Real.pi) := by
  rw [normalize_angle_neg_pi]
  intro h
  exact lt_irrefl _ h.1

/-- C5 (amended): `normalize_angle` maps every real into the CLOSED interval
`[-π, π]`, and the left endpoint `-π` is attained (at input `-π`). -/
theorem C5_normalize_range :
    (∀ x : ℝ, -Real.pi ≤ normalize_angle x ∧ normalize_angle x ≤ Real.pi)
  ∧ normalize_angle (-Real.pi) = -Real.pi :=
  ⟨normalize_angle_mem, normalize_angle_neg_pi⟩

/-- C6 counterexample: 2π-periodicity fails at `x = -π`:
`normalize_angle (-π + 2π) = π` while `normalize_angle (-π) = -π`. -/
theorem C6_counterexample :
    normalize_angle (-Real.pi + 2 * Real.pi) ≠ normalize_angle (-Real.pi) := by
  have h : -Real.pi + 2 * Real.pi = Real.pi := by ring
  rw [h, normalize_angle_pi, normalize_angle_neg_pi]
  have hpi := Real.pi_pos
  intro hq
  linarith

/-- C6 (amended): `normalize_angle` is idempotent at every real, and
`normalize_angle (x + 2π) = normalize_angle x` for every `x ≠ -π` (at
`x = -π` the two sides are `π` and `-π`). -/
theorem C6_normalize_idempotent_periodic :
    (∀ x : ℝ, normalize_angle (normalize_angle x) = normalize_angle x)
  ∧ (∀ x : ℝ, x ≠ -Real.pi →
      normalize_angle (x + 2 * Real.pi) = normalize_angle x) := by
  constructor
  · intro x
    exact normalize_angle_of_mem (normalize_angle_mem x).1 (normalize_angle_mem x).2
  · intro x hx
    rcases lt_or_gt_of_ne hx with hlt | hgt
    · have hpi := Real.pi_pos
      have h1 : x ≤ Real.pi := by linarith
      have h2 : x + 2 * Real.pi ≤ Real.pi := by linarith
      rw [normalize_angle, normalize_angle, normalize_angle_sub_of_le h1,
        normalize_angle_sub_of_le h2]
      conv_rhs => rw [normalize_angle_add]
      rw [if_pos hlt]
    · have hgt2 : Real.pi < x + 2 * Real.pi := by linarith
      rw [normalize_angle, normalize_angle]
      congr 1
      conv_lhs => rw [normalize_angle_sub]
      rw [if_pos hgt2]
      congr 1
      ring

/-- C7: a toggle event flips `auto_control` and resets `integral_error` to 0;
with no toggle, a manual-mode tick leaves `integral_error` unchanged and an
automatic-mode tick updates it by the clamped accumulation rule of
`calculate_control` (never an unconditional reset). -/
theorem C7_toggle_flips_and_resets (s : State) (left_pressed right_pressed : Bool) :
    (handle_toggle s true).auto_control = !s.auto_control
  ∧ (handle_toggle s true).integral_error = 0
  ∧ handle_toggle s false = s
  ∧ (s.auto_control = false →
      (update s ⟨false, left_pressed, right_pressed⟩).integral_error
        = s.integral_error)
  ∧ (s.auto_control = true →
      (update s ⟨false, left_pressed, right_pressed⟩).integral_error
        = (calculate_control s.theta s.omega s.integral_error).2) := by
  refine ⟨rfl, rfl, rfl, ?_, ?_⟩
  · intro h
    unfold update
    dsimp only
    rw [show handle_toggle s false = s from rfl]
    rw [if_neg (by simp [h])]
    rw [physics_step_integral]
  · intro h
    unfold update
    dsimp only
    rw [show handle_toggle s false = s from rfl]
    rw [if_pos h]
    rw [physics_step_integral]

/-- C8: `__init__` takes no configuration parameters and performs no
validation — construction is unconditional; the fixed configuration happens
to satisfy `0 < m`, `0 < l`, `0 < dt`, so the claimed rejection branch does
not exist in the code. -/
theorem C8_no_config_validation :
    m = 1 ∧ l = 30 ∧ dt = 1/60 ∧ 0 < m ∧ 0 < l ∧ 0 < dt
  ∧ init.integral_error = 0 ∧ init.auto_control = true := by
  norm_num [m, l, dt, init]

/-- C9: the manual-mode force is `-force_limit` for LEFT only,
`+force_limit` for RIGHT only, 0 for neither, and `+force_limit` when both
are held (RIGHT's assignment comes last); a no-toggle manual tick applies
exactly this force to the physics step. -/
theorem C9_manual_force_resolution (s : State) (left_pressed right_pressed : Bool) :
    manual_force true false = -force_limit
  ∧ manual_force false true = force_limit
  ∧ manual_force false false = 0
  ∧ manual_force true true = force_limit
  ∧ (s.auto_control = false →
      update s ⟨false, left_pressed, right_pressed⟩
        = physics_step s (manual_force left_pressed right_pressed)) := by
  refine ⟨rfl, rfl, rfl, rfl, ?_⟩
  intro h
  unfold update
  dsimp only
  rw [show handle_toggle s false = s from rfl]
  rw [if_neg (by simp [h])]

/-- C10: the tick is deterministic — identical starting state and identical
input sequences give exactly equal per-tick trajectories. -/
theorem C10_tick_deterministic (s1 s2 : State) (inputs1 inputs2 : List Input)
    (hs : s1 = s2) (hi : inputs1 = inputs2) :
    trajectory s1 inputs1 = trajectory s2 inputs2 := by
  subst hs
  subst hi
  rfl

theorem C10_tick_deterministic_witness :
    trajectory init [⟨false, false, true⟩]
      = trajectory init [⟨false, false, true⟩] :=
  C10_tick_deterministic init init [⟨false, false, true⟩]
    [⟨false, false, true⟩] rfl rfl

end InvertedPendulum
